import Mathlib

/-!
Verification of the transcript summariser pipeline (`summariser.py`).

Python strings are modelled as `List Char`.  File-system and network effects
are modelled by explicit parameters (does the input exist, what is its
content, how does the remote service answer) and by an event trace recording
the file reads, the outbound request and the file writes.  `sys.exit(1)`
paths are modelled by exit code 1 with a truncated trace.
-/

/-- The ASCII whitespace characters removed by Python `str.strip()`.
(`strip()` also removes some rarer Unicode whitespace; no claim touches it.) -/
def pyIsSpace (c : Char) : Bool :=
  c = ' ' || c = '\t' || c = '\n' || c = '\r' || c = '\x0b' || c = '\x0c'

/-- Python `str.strip()`: drop leading and trailing whitespace. -/
def pyStrip (s : List Char) : List Char :=
  ((s.dropWhile pyIsSpace).reverse.dropWhile pyIsSpace).reverse

/-- Python `str.lower()` (ASCII letters; the source only compares the result
against the ASCII literal ".txt"). -/
def pyLower (s : List Char) : List Char := s.map Char.toLower

/-- Python `str.endswith('.txt')`. -/
def endsWithTxt (s : List Char) : Bool :=
  s.reverse.take 4 = ['t', 'x', 't', '.']

/-- The decimal digit character for `n < 10`, as rendered by `strftime`. -/
def digitChar (n : Nat) : Char :=
  if n = 0 then '0' else if n = 1 then '1' else if n = 2 then '2'
  else if n = 3 then '3' else if n = 4 then '4' else if n = 5 then '5'
  else if n = 6 then '6' else if n = 7 then '7' else if n = 8 then '8' else '9'

/-- Decimal digits of `n`, most significant first; `fuel` bounds the
recursion so the definition is structural and evaluates in the kernel. -/
def natDigitsAux : Nat → Nat → List Char
  | 0, _ => []
  | fuel + 1, n =>
    if n < 10 then [digitChar n]
    else natDigitsAux fuel (n / 10) ++ [digitChar (n % 10)]

/-- Decimal rendering of `n` (`fuel = n + 1` always suffices). -/
def natDigits (n : Nat) : List Char := natDigitsAux (n + 1) n

/-- Zero-pad the decimal rendering of `n` to width `w`: the behaviour of the
`strftime` fields `%Y %m %d %H %M %S` (for `%Y` this is faithful for the
four-digit years produced by `datetime.now()`). -/
def padNat (w n : Nat) : List Char :=
  List.replicate (w - (natDigits n).length) '0' ++ natDigits n

/-- The six fields of `datetime.datetime.now()` used by the source. -/
structure DateTime where
  year : Nat
  month : Nat
  day : Nat
  hour : Nat
  minute : Nat
  second : Nat
deriving DecidableEq

/-- `datetime.datetime.now().strftime('%Y%m%d_%H%M%S')` (line 133). -/
def formatTimestamp (dt : DateTime) : List Char :=
  padNat 4 dt.year ++ padNat 2 dt.month ++ padNat 2 dt.day ++ ['_'] ++
  padNat 2 dt.hour ++ padNat 2 dt.minute ++ padNat 2 dt.second

/-- Split a path string into the `pathlib` parent part (everything up to and
including the last `/`, after ignoring trailing slashes) and the final
component (`Path(p).name`).  Joining `parent / child` is modelled as
appending `child` to the parent part. -/
def pySplitPath (p : List Char) : List Char × List Char :=
  let q := (p.reverse.dropWhile (· = '/')).reverse
  ((q.reverse.dropWhile (· ≠ '/')).reverse, (q.reverse.takeWhile (· ≠ '/')).reverse)

/-- Split a final path component into `pathlib` `stem` and `suffix`: the
suffix starts at the last dot, provided that dot is neither the first nor
the last character of the name (`Path('.txt')` and `Path('x.')` have empty
suffix). -/
def pySplitExt (nm : List Char) : List Char × List Char :=
  if nm.reverse.dropWhile (· ≠ '.') = [] ∨
      (nm.reverse.dropWhile (· ≠ '.')).drop 1 = [] ∨
      nm.reverse.takeWhile (· ≠ '.') = [] then (nm, [])
  else (((nm.reverse.dropWhile (· ≠ '.')).drop 1).reverse,
        '.' :: (nm.reverse.takeWhile (· ≠ '.')).reverse)

/-- The output-path computation of `process_transcript` (lines 132-143):
no explicit output gives `parent / (stem ++ "_summary_" ++ ts ++ ".txt")`;
an explicit output with `pathlib` suffix exactly `".txt"` gets the timestamp
spliced before the extension (`with_stem`), any other explicit output gets
`"_" ++ ts ++ ".txt"` appended to its full final component. -/
def computeOutputPath (inputFile : List Char) (outputFile : Option (List Char))
    (dt : DateTime) : List Char :=
  let ts := formatTimestamp dt
  match outputFile with
  | none =>
    let (dir, nm) := pySplitPath inputFile
    dir ++ ((pySplitExt nm).1 ++ "_summary_".toList ++ ts ++ ".txt".toList)
  | some op =>
    let (dir, nm) := pySplitPath op
    let (stem, sfx) := pySplitExt nm
    if sfx = ".txt".toList then dir ++ (stem ++ ['_'] ++ ts) ++ sfx
    else dir ++ (nm ++ ['_'] ++ ts ++ ".txt".toList)

/-- `read_txt_file` (lines 36-53) on a readable file holding `content`:
`none` models the `sys.exit(1)` taken when the content is empty or
whitespace-only, otherwise the content is returned unchanged. -/
def read_txt_file (content : List Char) : Option (List Char) :=
  if pyStrip content = [] then none else some content

/-- The f-string text preceding the transcript in the prompt (lines 64-65);
the backslash line continuation keeps the 20 leading spaces of line 65. -/
def promptPre : List Char :=
  ("Please provide a comprehensive summary of the following Teams transcript. " ++
   "                    " ++
   "Focus on the key points from each participant, main topics discussed, " ++
   "and important decisions or follow-up actions mentioned.\n\nTranscript:\n").toList

/-- The f-string text following the transcript in the prompt. -/
def promptPost : List Char := "\n\nSummary:".toList

/-- One element of the `messages` array of the request body. -/
structure Message where
  role : List Char
  content : List Char
deriving DecidableEq

/-- The JSON request body built by `summarize_with_bedrock` (lines 67-76):
exactly the three keys `anthropic_version`, `max_tokens`, `messages`. -/
structure RequestBody where
  anthropic_version : List Char
  max_tokens : Nat
  messages : List Message
deriving DecidableEq

/-- Construction of the request body (lines 64-76). -/
def buildRequest (text : List Char) (maxTokens : Nat) : RequestBody :=
  { anthropic_version := "bedrock-2023-05-31".toList
    max_tokens := maxTokens
    messages := [{ role := "user".toList, content := promptPre ++ text ++ promptPost }] }

/-- One element of the `content` array of the parsed JSON response. -/
structure ContentItem where
  text : List Char
deriving DecidableEq

/-- The parsed JSON response body, as accessed by
`response_body['content'][0]['text']` (line 85). -/
structure ResponseBody where
  content : List ContentItem
deriving DecidableEq

/-- The outcomes of `invoke_model` as seen by the `try/except` blocks: a
parsed response body, a `botocore` `ClientError` carrying an error code and
its rendered text, or any other exception with its rendered text. -/
inductive BedrockResp where
  | success (body : ResponseBody)
  | clientError (code errText : List Char)
  | otherError (errText : List Char)
deriving DecidableEq

/-- Message printed for `AccessDeniedException` (line 92). -/
def accessDeniedMsg : List Char :=
  "Access denied. Please check your AWS permissions for Bedrock.".toList

/-- Message printed for `ModelInvocationException` (line 94). -/
def modelInvocationMsg : List Char :=
  "Model invocation failed. Please check the input format.".toList

/-- Message chosen by the `ClientError` handler (lines 89-96) from the
error-code field. -/
def bedrockClientMsg (code errText : List Char) : List Char :=
  if code = "AccessDeniedException".toList then accessDeniedMsg
  else if code = "ModelInvocationException".toList then modelInvocationMsg
  else "AWS Bedrock error: ".toList ++ errText

/-- Message of the generic `except Exception` handler (lines 98-100). -/
def summarizationErrMsg (errText : List Char) : List Char :=
  "Error during summarization: ".toList ++ errText

/-- `summarize_with_bedrock` (lines 55-100): returns the request body sent
and either the extracted summary or the fatal error message (the
`sys.exit(1)` paths).  Indexing `['content'][0]` into an empty array raises
`IndexError('list index out of range')`, caught by the generic handler. -/
def summarize_with_bedrock (text : List Char) (maxTokens : Nat)
    (resp : BedrockResp) : RequestBody × Except (List Char) (List Char) :=
  let body := buildRequest text maxTokens
  match resp with
  | .success rb =>
    match rb.content with
    | [] => (body, .error (summarizationErrMsg "list index out of range".toList))
    | item :: _ => (body, .ok item.text)
  | .clientError code errText => (body, .error (bedrockClientMsg code errText))
  | .otherError errText => (body, .error (summarizationErrMsg errText))

/-- The file content written by `save_summary_to_txt` (lines 110-112):
the fixed header, the stripped summary, one trailing newline. -/
def save_summary_to_txt (summary : List Char) : List Char :=
  "Transcript Summary\n\n".toList ++ pyStrip summary ++ ['\n']

/-- Observable side effects of one run. -/
inductive Event where
  | readFile (path : List Char)
  | sendRequest (body : RequestBody)
  | writeFile (path content : List Char)
deriving DecidableEq

/-- `true` exactly on `writeFile` events. -/
def isWriteEvent : Event → Bool
  | .writeFile _ _ => true
  | _ => false

/-- `true` exactly on `sendRequest` events. -/
def isSendEvent : Event → Bool
  | .sendRequest _ => true
  | _ => false

/-- Trace and exit code of one run of the tool. -/
structure RunResult where
  events : List Event
  exitCode : Nat
deriving DecidableEq

/-- `process_transcript` (lines 118-151): validate existence and (lowercased)
extension of the input, compute the timestamped output path, read the file,
request the summary, write the output.  Every failure is `sys.exit(1)`. -/
def process_transcript (inputFile : List Char) (outputFile : Option (List Char))
    (inputFound : Bool) (fileContent : List Char) (dt : DateTime)
    (resp : BedrockResp) : RunResult :=
  if !inputFound then { events := [], exitCode := 1 }
  else if !endsWithTxt (pyLower inputFile) then { events := [], exitCode := 1 }
  else
    let outPath := computeOutputPath inputFile outputFile dt
    match read_txt_file fileContent with
    | none => { events := [Event.readFile inputFile], exitCode := 1 }
    | some text =>
      match summarize_with_bedrock text 1000 resp with
      | (body, .error _) =>
        { events := [Event.readFile inputFile, Event.sendRequest body], exitCode := 1 }
      | (body, .ok summary) =>
        { events := [Event.readFile inputFile, Event.sendRequest body,
                     Event.writeFile outPath (save_summary_to_txt summary)],
          exitCode := 0 }

/-- Timestamp used by the concrete witnesses: 2026-10-12 15:30:45. -/
def sampleDT : DateTime :=
  { year := 2026, month := 10, day := 12, hour := 15, minute := 30, second := 45 }

example : formatTimestamp sampleDT = "20261012_153045".toList := by decide

example : computeOutputPath "name.txt".toList none sampleDT =
    "name_summary_20261012_153045.txt".toList := by decide

example : computeOutputPath "in.txt".toList (some "stem.txt".toList) sampleDT =
    "stem_20261012_153045.txt".toList := by decide

example : computeOutputPath "in.txt".toList (some "report.pdf".toList) sampleDT =
    "report.pdf_20261012_153045.txt".toList := by decide

example : computeOutputPath "in.txt".toList (some ".txt".toList) sampleDT =
    ".txt_20261012_153045.txt".toList := by decide

example : computeOutputPath "in.txt".toList (some "a.txt/".toList) sampleDT =
    "a_20261012_153045.txt".toList := by decide

example : computeOutputPath "dir/name.txt".toList none sampleDT =
    "dir/name_summary_20261012_153045.txt".toList := by decide

example : computeOutputPath "in.txt".toList (some "name.TXT".toList) sampleDT =
    "name.TXT_20261012_153045.txt".toList := by decide

/-! ### Helper lemmas -/

theorem digitChar_isDigit (n : Nat) : (digitChar n).isDigit = true := by
  unfold digitChar
  repeat' split
  all_goals decide

theorem natDigitsAux_isDigit : ∀ fuel n c, c ∈ natDigitsAux fuel n → c.isDigit = true
  | 0, n, c, h => by simp [natDigitsAux] at h
  | fuel + 1, n, c, h => by
    unfold natDigitsAux at h
    split at h
    · simp at h
      subst h
      exact digitChar_isDigit n
    · rcases List.mem_append.1 h with h | h
      · exact natDigitsAux_isDigit fuel (n / 10) c h
      · simp at h
        subst h
        exact digitChar_isDigit (n % 10)

theorem natDigitsAux_length : ∀ fuel n w, n < fuel → 1 ≤ w → n < 10 ^ w →
    (natDigitsAux fuel n).length ≤ w
  | 0, n, w, hf, _, _ => absurd hf (by omega)
  | fuel + 1, n, w, hf, hw, hn => by
    unfold natDigitsAux
    split
    · simpa using hw
    · rename_i h10
      have hw2 : 2 ≤ w := by
        rcases Nat.lt_or_ge w 2 with h | h
        · interval_cases w
          omega
        · exact h
      have hdivfuel : n / 10 < fuel := by
        have hlt : n / 10 < n := Nat.div_lt_self (by omega) (by norm_num)
        omega
      have hdivpow : n / 10 < 10 ^ (w - 1) := by
        rw [Nat.div_lt_iff_lt_mul (by omega)]
        have hw1 : w - 1 + 1 = w := by omega
        have heq : 10 ^ (w - 1) * 10 = 10 ^ w := by
          calc 10 ^ (w - 1) * 10 = 10 ^ (w - 1 + 1) := (pow_succ 10 (w - 1)).symm
          _ = 10 ^ w := by rw [hw1]
        omega
      have := natDigitsAux_length fuel (n / 10) (w - 1) hdivfuel (by omega) hdivpow
      simp only [List.length_append, List.length_cons, List.length_nil]
      omega

theorem natDigits_isDigit (n : Nat) (c : Char) (h : c ∈ natDigits n) :
    c.isDigit = true :=
  natDigitsAux_isDigit (n + 1) n c h

theorem natDigits_length (n w : Nat) (hw : 1 ≤ w) (hn : n < 10 ^ w) :
    (natDigits n).length ≤ w :=
  natDigitsAux_length (n + 1) n w (by omega) hw hn

theorem padNat_length (w n : Nat) (hw : 1 ≤ w) (hn : n < 10 ^ w) :
    (padNat w n).length = w := by
  have := natDigits_length n w hw hn
  simp only [padNat, List.length_append, List.length_replicate]
  omega

theorem padNat_isDigit (w n : Nat) (c : Char) (h : c ∈ padNat w n) :
    c.isDigit = true := by
  rcases List.mem_append.1 h with h | h
  · rw [List.eq_of_mem_replicate h]
    decide
  · exact natDigits_isDigit n c h

theorem pySplitExt_fst_append_snd (nm : List Char) :
    (pySplitExt nm).1 ++ (pySplitExt nm).2 = nm := by
  unfold pySplitExt
  split
  · simp
  · rename_i h
    push_neg at h
    obtain ⟨h1, h2, _⟩ := h
    have hhead : nm.reverse.dropWhile (· ≠ '.') =
        '.' :: (nm.reverse.dropWhile (· ≠ '.')).drop 1 := by
      have hne := List.head_dropWhile_not (fun c => decide (c ≠ '.')) nm.reverse h1
      have hd : (nm.reverse.dropWhile (· ≠ '.')).head h1 = '.' := by
        simpa using hne
      conv_lhs => rw [← List.head_cons_tail _ h1]
      rw [hd, List.drop_one]
    have ht := List.takeWhile_append_dropWhile (fun c => decide (c ≠ '.')) nm.reverse
    rw [hhead] at ht
    have := congrArg List.reverse ht
    simp only [List.reverse_append, List.reverse_cons, List.reverse_reverse,
      List.append_assoc, List.singleton_append] at this
    simpa using this

theorem pySplitExt_append_txt (w : List Char) (hw : w ≠ []) :
    pySplitExt (w ++ ".txt".toList) = (w, ".txt".toList) := by
  have hr : (w ++ ".txt".toList).reverse = 't' :: 'x' :: 't' :: '.' :: w.reverse := by
    simp [List.reverse_append]
  unfold pySplitExt
  rw [hr]
  have hdw : List.dropWhile (fun c => decide (c ≠ '.'))
      ('t' :: 'x' :: 't' :: '.' :: w.reverse) = '.' :: w.reverse := by
    simp [List.dropWhile_cons]
  have htw : List.takeWhile (fun c => decide (c ≠ '.'))
      ('t' :: 'x' :: 't' :: '.' :: w.reverse) = ['t', 'x', 't'] := by
    simp [List.takeWhile_cons]
  rw [hdw, htw]
  have hwr : w.reverse ≠ [] := by simpa using hw
  rw [if_neg (by simp [hwr])]
  simp

theorem take4_reverse_append (l a : List Char) (ha : a.length = 4) :
    (l ++ a).reverse.take 4 = a.reverse := by
  rw [List.reverse_append]
  exact List.take_left' (by simp [ha])

theorem endsWithTxt_append_txt (l : List Char) :
    endsWithTxt (l ++ ".txt".toList) = true := by
  unfold endsWithTxt
  rw [take4_reverse_append l _ (by decide)]
  decide

theorem endsWithTxt_of_suffix_txt (nm : List Char)
    (h : (pySplitExt nm).2 = ".txt".toList) : endsWithTxt nm = true := by
  have h8 := pySplitExt_fst_append_snd nm
  rw [h] at h8
  rw [← h8]
  exact endsWithTxt_append_txt _

theorem append_ne_of_take_ne (a e m : List Char) (h : m.take a.length ≠ a) :
    a ++ e ≠ m := by
  intro he
  exact h (by rw [← he, List.take_left])

/-! ### Claims -/

/-- Claim C5: for every readable input file whose content is non-empty after
trimming whitespace, `read_txt_file` returns the content exactly as read
(round-trip identity). -/
theorem claim_C5_roundtrip (content : List Char) (h : pyStrip content ≠ []) :
    read_txt_file content = some content := by
  simp [read_txt_file, h]

/-- Witness for C5 at a concrete file content. -/
theorem claim_C5_witness :
    read_txt_file "hello world".toList = some "hello world".toList :=
  claim_C5_roundtrip "hello world".toList (by decide)

/-- Claim C9: for every transcript text and token budget, the request body
holds exactly the protocol-version tag, the token budget and one user-role
message whose content embeds the transcript verbatim in the fixed template. -/
theorem claim_C9_request_body (text : List Char) (maxTokens : Nat)
    (resp : BedrockResp) :
    (summarize_with_bedrock text maxTokens resp).1 = buildRequest text maxTokens ∧
    buildRequest text maxTokens =
      { anthropic_version := "bedrock-2023-05-31".toList
        max_tokens := maxTokens
        messages := [{ role := "user".toList
                       content := promptPre ++ text ++ promptPost }] } ∧
    ∃ a b, (buildRequest text maxTokens).messages =
      [{ role := "user".toList, content := a ++ text ++ b }] := by
  refine ⟨?_, rfl, promptPre, promptPost, rfl⟩
  cases resp with
  | success rb =>
    obtain ⟨cnt⟩ := rb
    cases cnt <;> rfl
  | clientError code e => rfl
  | otherError e => rfl

/-- Claim C1: for every summary returned by the client, the writer writes
exactly the two header lines, the stripped summary and one trailing newline;
for `content[0].text = "X"` the file is exactly `"Transcript Summary\n\nX\n"`. -/
theorem claim_C1_written_file (inp : List Char) (outp : Option (List Char))
    (content : List Char) (dt : DateTime) (S : List Char)
    (rest : List ContentItem)
    (hext : endsWithTxt (pyLower inp) = true) (hne : pyStrip content ≠ []) :
    (process_transcript inp outp true content dt
        (.success { content := { text := S } :: rest })).events =
      [Event.readFile inp, Event.sendRequest (buildRequest content 1000),
       Event.writeFile (computeOutputPath inp outp dt)
         ("Transcript Summary\n\n".toList ++ pyStrip S ++ ['\n'])] ∧
    save_summary_to_txt "X".toList = "Transcript Summary\n\nX\n".toList := by
  constructor
  · simp [process_transcript, hext, read_txt_file, hne, summarize_with_bedrock,
      save_summary_to_txt, buildRequest]
  · decide

/-- Witness for C1 at a concrete run. -/
theorem claim_C1_witness :
    (process_transcript "t.txt".toList none true "hi".toList sampleDT
        (.success { content := [{ text := "X".toList }] })).events =
      [Event.readFile "t.txt".toList,
       Event.sendRequest (buildRequest "hi".toList 1000),
       Event.writeFile (computeOutputPath "t.txt".toList none sampleDT)
         ("Transcript Summary\n\n".toList ++ pyStrip "X".toList ++ ['\n'])] ∧
    save_summary_to_txt "X".toList = "Transcript Summary\n\nX\n".toList :=
  claim_C1_written_file "t.txt".toList none "hi".toList sampleDT "X".toList []
    (by decide) (by decide)

/-- Claim C6: for every input whose content is empty or whitespace-only, the
run exits with code 1 and the trace holds no network request. -/
theorem claim_C6_empty_no_request (inp : List Char) (outp : Option (List Char))
    (found : Bool) (content : List Char) (dt : DateTime) (resp : BedrockResp)
    (h : pyStrip content = []) :
    (process_transcript inp outp found content dt resp).exitCode = 1 ∧
    (process_transcript inp outp found content dt resp).events.countP
      isSendEvent = 0 := by
  cases found with
  | false => simp [process_transcript]
  | true =>
    by_cases hext : endsWithTxt (pyLower inp) = true
    · simp [process_transcript, hext, read_txt_file, h, isSendEvent]
    · have hext' : endsWithTxt (pyLower inp) = false := by
        simpa using hext
      simp [process_transcript, hext']

/-- Witness for C6 at a concrete whitespace-only file. -/
theorem claim_C6_witness :
    (process_transcript "t.txt".toList none true "  ".toList sampleDT
        (.otherError "boom".toList)).exitCode = 1 ∧
    (process_transcript "t.txt".toList none true "  ".toList sampleDT
        (.otherError "boom".toList)).events.countP isSendEvent = 0 :=
  claim_C6_empty_no_request "t.txt".toList none true "  ".toList sampleDT
    (.otherError "boom".toList) (by decide)

/-- Claim C7: whenever the remote service answers `AccessDeniedException`,
the run exits with code 1 and the trace holds no file write. -/
theorem claim_C7_access_denied_no_write (inp : List Char)
    (outp : Option (List Char)) (found : Bool) (content : List Char)
    (dt : DateTime) (e : List Char) :
    (process_transcript inp outp found content dt
        (.clientError "AccessDeniedException".toList e)).exitCode = 1 ∧
    (process_transcript inp outp found content dt
        (.clientError "AccessDeniedException".toList e)).events.countP
      isWriteEvent = 0 := by
  cases found with
  | false => simp [process_transcript]
  | true =>
    by_cases hext : endsWithTxt (pyLower inp) = true
    · by_cases hc : pyStrip content = []
      · simp [process_transcript, hext, read_txt_file, hc, isWriteEvent]
      · simp [process_transcript, hext, read_txt_file, hc,
          summarize_with_bedrock, isWriteEvent]
    · have hext' : endsWithTxt (pyLower inp) = false := by
        simpa using hext
      simp [process_transcript, hext']

/-- Claim C8: the error category is decided by the error-code field; the
authorization, malformed-request and generic failures each get a distinct
message; every remote failure is fatal (exit code 1) and at most one request
is ever sent (no retry). -/
theorem claim_C8_error_taxonomy :
    (∀ e, bedrockClientMsg "AccessDeniedException".toList e = accessDeniedMsg) ∧
    (∀ e, bedrockClientMsg "ModelInvocationException".toList e =
      modelInvocationMsg) ∧
    (∀ code e, code ≠ "AccessDeniedException".toList →
      code ≠ "ModelInvocationException".toList →
      bedrockClientMsg code e = "AWS Bedrock error: ".toList ++ e) ∧
    accessDeniedMsg ≠ modelInvocationMsg ∧
    (∀ e, "AWS Bedrock error: ".toList ++ e ≠ accessDeniedMsg) ∧
    (∀ e, "AWS Bedrock error: ".toList ++ e ≠ modelInvocationMsg) ∧
    (∀ e, summarizationErrMsg e ≠ accessDeniedMsg) ∧
    (∀ e, summarizationErrMsg e ≠ modelInvocationMsg) ∧
    (∀ inp outp found content dt code e,
      (process_transcript inp outp found content dt
        (.clientError code e)).exitCode = 1) ∧
    (∀ inp outp found content dt resp,
      (process_transcript inp outp found content dt resp).events.countP
        isSendEvent ≤ 1) := by
  refine ⟨?_, ?_, ?_, by decide, ?_, ?_, ?_, ?_, ?_, ?_⟩
  · intro e
    simp [bedrockClientMsg]
  · intro e
    simp [bedrockClientMsg]
  · intro code e h1 h2
    simp only [bedrockClientMsg]
    rw [if_neg h1, if_neg h2]
  · intro e
    exact append_ne_of_take_ne _ _ _ (by decide)
  · intro e
    exact append_ne_of_take_ne _ _ _ (by decide)
  · intro e
    simp only [summarizationErrMsg]
    exact append_ne_of_take_ne _ _ _ (by decide)
  · intro e
    simp only [summarizationErrMsg]
    exact append_ne_of_take_ne _ _ _ (by decide)
  · intro inp outp found content dt code e
    cases found with
    | false => simp [process_transcript]
    | true =>
      by_cases hext : endsWithTxt (pyLower inp) = true
      · by_cases hc : pyStrip content = []
        · simp [process_transcript, hext, read_txt_file, hc]
        · simp [process_transcript, hext, read_txt_file, hc,
            summarize_with_bedrock]
      · have hext' : endsWithTxt (pyLower inp) = false := by
          simpa using hext
        simp [process_transcript, hext']
  · intro inp outp found content dt resp
    cases found with
    | false => simp [process_transcript]
    | true =>
      by_cases hext : endsWithTxt (pyLower inp) = true
      · by_cases hc : pyStrip content = []
        · simp [process_transcript, hext, read_txt_file, hc, isSendEvent]
        · cases resp with
          | success rb =>
            obtain ⟨cnt⟩ := rb
            cases cnt with
            | nil =>
              simp [process_transcript, hext, read_txt_file, hc,
                summarize_with_bedrock, isSendEvent]
            | cons item tl =>
              simp [process_transcript, hext, read_txt_file, hc,
                summarize_with_bedrock, isSendEvent]
          | clientError code e =>
            simp [process_transcript, hext, read_txt_file, hc,
              summarize_with_bedrock, isSendEvent]
          | otherError e =>
            simp [process_transcript, hext, read_txt_file, hc,
              summarize_with_bedrock, isSendEvent]
      · have hext' : endsWithTxt (pyLower inp) = false := by
          simpa using hext
        simp [process_transcript, hext']

/-- Witness for C8: a generic error code gets the generic message, and an
`AccessDeniedException` run exits with code 1. -/
theorem claim_C8_witness :
    bedrockClientMsg "ThrottlingException".toList "x".toList =
      "AWS Bedrock error: ".toList ++ "x".toList ∧
    (process_transcript "t.txt".toList none true "hi".toList sampleDT
        (.clientError "AccessDeniedException".toList "denied".toList)).exitCode
      = 1 := by
  have h := claim_C8_error_taxonomy
  exact ⟨h.2.2.1 "ThrottlingException".toList "x".toList (by decide) (by decide),
    h.2.2.2.2.2.2.2.2.1 "t.txt".toList none true "hi".toList sampleDT
      "AccessDeniedException".toList "denied".toList⟩

/-- Counterexample for C2: at 2026-10-12 15:30:45 the derived output name is
`name_summary_20261012_153045.txt`, and no 14-digit string fills the pattern
`name_summary_<14 digits>.txt` (the code puts an underscore between the date
and the time, so 15 characters stand between `_summary_` and `.txt`). -/
theorem claim_C2_counterexample :
    ¬ ∃ ts : List Char, ts.length = 14 ∧ (∀ c ∈ ts, c.isDigit = true) ∧
      computeOutputPath "name.txt".toList none sampleDT =
        "name_summary_".toList ++ ts ++ ".txt".toList := by
  rintro ⟨ts, hlen, -, heq⟩
  have h0 : computeOutputPath "name.txt".toList none sampleDT =
      "name_summary_20261012_153045.txt".toList := by decide
  rw [h0] at heq
  have hL : ("name_summary_20261012_153045.txt".toList).length = 32 := by decide
  have h13 : ("name_summary_".toList).length = 13 := by decide
  have h4 : (".txt".toList).length = 4 := by decide
  have hlen2 := congrArg List.length heq
  rw [hL] at hlen2
  simp only [List.length_append, h13, h4, hlen] at hlen2
  omega

/-- Claim C2 as amended: for an input whose final component is `w ++ ".txt"`,
the derived output is the parent part, the stem `w`, `_summary_`, then a
15-character timestamp made of 8 digits (year, month, day), an underscore
and 6 digits (hour, minute, second), then `.txt`. -/
theorem claim_C2_amended (p dir w : List Char) (dt : DateTime)
    (hsplit : pySplitPath p = (dir, w ++ ".txt".toList)) (hw : w ≠ [])
    (hy1 : 1000 ≤ dt.year) (hy2 : dt.year < 10000) (hmo : dt.month < 100)
    (hd : dt.day < 100) (hh : dt.hour < 100) (hmi : dt.minute < 100)
    (hs : dt.second < 100) :
    ∃ a b : List Char,
      computeOutputPath p none dt =
        dir ++ w ++ "_summary_".toList ++ (a ++ '_' :: b) ++ ".txt".toList ∧
      a.length = 8 ∧ b.length = 6 ∧
      (∀ c ∈ a, c.isDigit = true) ∧ (∀ c ∈ b, c.isDigit = true) := by
  have e4 : (10000 : Nat) = 10 ^ 4 := by norm_num
  have e2 : (100 : Nat) = 10 ^ 2 := by norm_num
  have ly := padNat_length 4 dt.year (by omega) (by omega)
  have lmo := padNat_length 2 dt.month (by omega) (by omega)
  have ld := padNat_length 2 dt.day (by omega) (by omega)
  have lh := padNat_length 2 dt.hour (by omega) (by omega)
  have lmi := padNat_length 2 dt.minute (by omega) (by omega)
  have ls := padNat_length 2 dt.second (by omega) (by omega)
  refine ⟨padNat 4 dt.year ++ padNat 2 dt.month ++ padNat 2 dt.day,
          padNat 2 dt.hour ++ padNat 2 dt.minute ++ padNat 2 dt.second,
          ?_, ?_, ?_, ?_, ?_⟩
  · simp only [computeOutputPath, hsplit, pySplitExt_append_txt w hw,
      formatTimestamp]
    simp [List.append_assoc]
  · simp only [List.length_append, ly, lmo, ld]
  · simp only [List.length_append, lh, lmi, ls]
  · intro c hc
    rcases List.mem_append.1 hc with hc | hc
    · rcases List.mem_append.1 hc with hc | hc
      · exact padNat_isDigit 4 dt.year c hc
      · exact padNat_isDigit 2 dt.month c hc
    · exact padNat_isDigit 2 dt.day c hc
  · intro c hc
    rcases List.mem_append.1 hc with hc | hc
    · rcases List.mem_append.1 hc with hc | hc
      · exact padNat_isDigit 2 dt.hour c hc
      · exact padNat_isDigit 2 dt.minute c hc
    · exact padNat_isDigit 2 dt.second c hc

/-- Witness for the amended C2 at the concrete input `name.txt`. -/
theorem claim_C2_witness :
    ∃ a b : List Char,
      computeOutputPath "name.txt".toList none sampleDT =
        [] ++ "name".toList ++ "_summary_".toList ++ (a ++ '_' :: b) ++
          ".txt".toList ∧
      a.length = 8 ∧ b.length = 6 ∧
      (∀ c ∈ a, c.isDigit = true) ∧ (∀ c ∈ b, c.isDigit = true) :=
  claim_C2_amended "name.txt".toList [] "name".toList sampleDT (by decide)
    (by decide) (by decide) (by decide) (by decide) (by decide) (by decide)
    (by decide) (by decide)

/-- Counterexample for C3: the explicit output path `.txt` ends in `.txt`,
but `pathlib` treats the leading dot as part of the stem (empty suffix), so
the code appends instead of splicing: the result is
`.txt_20261012_153045.txt`, not `_20261012_153045.txt`. -/
theorem claim_C3_counterexample :
    computeOutputPath "in.txt".toList (some ".txt".toList) sampleDT =
      ".txt_20261012_153045.txt".toList ∧
    computeOutputPath "in.txt".toList (some ".txt".toList) sampleDT ≠
      "_20261012_153045.txt".toList := by
  exact ⟨by decide, by decide⟩

/-- Claim C3 as amended: for an explicit output path whose final component
ends in `.txt` with a non-empty stem in front (so its `pathlib` suffix is
`.txt`), the timestamp is spliced right before the extension, preserving the
stem and the extension. -/
theorem claim_C3_amended (inp op dir w : List Char) (dt : DateTime)
    (hsplit : pySplitPath op = (dir, w ++ ".txt".toList)) (hw : w ≠ []) :
    computeOutputPath inp (some op) dt =
      dir ++ w ++ ['_'] ++ formatTimestamp dt ++ ".txt".toList := by
  simp only [computeOutputPath, hsplit, pySplitExt_append_txt w hw]
  simp [List.append_assoc]

/-- Witness for the amended C3 at the concrete output path `stem.txt`. -/
theorem claim_C3_witness :
    computeOutputPath "in.txt".toList (some "stem.txt".toList) sampleDT =
      [] ++ "stem".toList ++ ['_'] ++ formatTimestamp sampleDT ++
        ".txt".toList :=
  claim_C3_amended "in.txt".toList "stem.txt".toList [] "stem".toList sampleDT
    (by decide) (by decide)

/-- Counterexample for C4: the explicit output path `a.txt/` does not end in
`.txt`, yet `pathlib` ignores the trailing slash, sees suffix `.txt` and the
code splices: the result is `a_20261012_153045.txt`, not the original name
with `_<timestamp>.txt` appended. -/
theorem claim_C4_counterexample :
    computeOutputPath "in.txt".toList (some "a.txt/".toList) sampleDT =
      "a_20261012_153045.txt".toList ∧
    computeOutputPath "in.txt".toList (some "a.txt/".toList) sampleDT ≠
      "a.txt/_20261012_153045.txt".toList := by
  exact ⟨by decide, by decide⟩

/-- Claim C4 as amended: for an explicit output path whose final component
(after ignoring trailing slashes) does not end in `.txt`, the computed path
is the parent part, the full component, an underscore, the timestamp and the
appended `.txt` extension. -/
theorem claim_C4_amended (inp op dir nm : List Char) (dt : DateTime)
    (hsplit : pySplitPath op = (dir, nm)) (hnm : endsWithTxt nm = false) :
    computeOutputPath inp (some op) dt =
      dir ++ nm ++ ['_'] ++ formatTimestamp dt ++ ".txt".toList := by
  have hsfx : (pySplitExt nm).2 ≠ ".txt".toList := by
    intro h
    rw [endsWithTxt_of_suffix_txt nm h] at hnm
    exact Bool.noConfusion hnm
  cases hE : pySplitExt nm with
  | mk stem sfx =>
    rw [hE] at hsfx
    simp only [computeOutputPath, hsplit, hE]
    rw [if_neg (by simpa using hsfx)]
    simp [List.append_assoc]

/-- Witness for the amended C4 at the concrete output path `report.pdf`. -/
theorem claim_C4_witness :
    computeOutputPath "in.txt".toList (some "report.pdf".toList) sampleDT =
      [] ++ "report.pdf".toList ++ ['_'] ++ formatTimestamp sampleDT ++
        ".txt".toList :=
  claim_C4_amended "in.txt".toList "report.pdf".toList [] "report.pdf".toList
    sampleDT (by decide) (by decide)

/-- Claim C10: the input extension check lowercases first, so any case
variant of `.txt` is accepted; the explicit-output suffix comparison is
case-sensitive, so a component ending in `.TXT` takes the append branch and
yields `name.TXT_<timestamp>.txt`. -/
theorem claim_C10_case_sensitivity :
    (∀ p e : List Char, pyLower e = ".txt".toList →
      endsWithTxt (pyLower (p ++ e)) = true) ∧
    (∀ inp op dir w : List Char, ∀ dt : DateTime,
      pySplitPath op = (dir, w ++ ".TXT".toList) →
      computeOutputPath inp (some op) dt =
        dir ++ w ++ ".TXT".toList ++ ['_'] ++ formatTimestamp dt ++
          ".txt".toList) := by
  constructor
  · intro p e he
    unfold pyLower at he ⊢
    rw [List.map_append, he]
    exact endsWithTxt_append_txt _
  · intro inp op dir w dt hsplit
    have hsfx : (pySplitExt (w ++ ".TXT".toList)).2 ≠ ".txt".toList := by
      intro h
      have h2 := endsWithTxt_of_suffix_txt _ h
      have h3 : endsWithTxt (w ++ ".TXT".toList) = false := by
        unfold endsWithTxt
        rw [take4_reverse_append _ _ (by decide)]
        decide
      rw [h3] at h2
      exact Bool.noConfusion h2
    cases hE : pySplitExt (w ++ ".TXT".toList) with
    | mk stem sfx =>
      rw [hE] at hsfx
      simp only [computeOutputPath, hsplit, hE]
      rw [if_neg (by simpa using hsfx)]
      simp [List.append_assoc]

/-- Witness for C10: the input `a.TxT` passes the extension check, and the
explicit output `name.TXT` gets the append-branch result. -/
theorem claim_C10_witness :
    endsWithTxt (pyLower ("a".toList ++ ".TxT".toList)) = true ∧
    computeOutputPath "in.txt".toList (some "name.TXT".toList) sampleDT =
      [] ++ "name".toList ++ ".TXT".toList ++ ['_'] ++
        formatTimestamp sampleDT ++ ".txt".toList :=
  ⟨claim_C10_case_sensitivity.1 "a".toList ".TxT".toList (by decide),
   claim_C10_case_sensitivity.2 "in.txt".toList "name.TXT".toList []
     "name".toList sampleDT (by decide)⟩
